import Mathlib


/-!
Verification development for the `10_compiler_i` stage of the nand2tetris
repository: a shallow embedding in Lean 4 of the lexer (`tokenizer.py`), the
token stream with lookahead (`Tokenizer.peek` / `Tokenizer.next`), the grammar
combinator framework (`base.py`, `terminals.py`, `intermediates.py`,
`expressions.py`, `compilation_engine.py`) and the two XML serializers
(`generate_tokenized_xml` and `nodes.py`).

Python multiline strings are modelled as `List Char`; files are modelled as the
list of their lines (each line including its trailing newline character, the
shape `readline` produces; an empty list of remaining lines corresponds to
`readline` returning `""`, i.e. end of file).  Python exceptions are modelled
by the `Err` sum type; loops are modelled with explicit fuel, and running out
of fuel is the distinguished outcome `Err.outOfFuel` (used to express
non-termination: a computation diverges iff it yields `outOfFuel` for every
fuel).
-/

namespace JackAnalyzer

/-- One lexical token, as in `tokenizer.py` (`class Token`: fields `type` and
`name`). -/
structure Token where
  type : String
  name : String
deriving DecidableEq, Repr

/-- Python `Token.__str__`: `f"{self.type} \x7b`\x7d{self.name}`"`, i.e. the text
`type `name``. -/
def tokenStr (t : Token) : String :=
  t.type ++ " `" ++ t.name ++ "`"

/-- Python `str(x)` for an `x` that is a `Token` or `None` (used in the `OneOf`
failure message, where `first_token` may be `None`). -/
def optTokenStr : Option Token → String
  | none => "None"
  | some t => tokenStr t

/-- Outcomes of the embedded Python code.  `outOfFuel` is not a Python
exception: it records that the fuel given to the interpreter ran out.  The
remaining constructors model the exceptions the analyzed code can raise:
`typeError` (calling a `match(self, t)` method with the unexpected keyword
argument `index`), `attributeError` (attribute access on `None` or on an
object lacking the attribute), `indexError` (string indexing out of range),
`nameError` (evaluating a name that is bound nowhere, such as
`TokenizerError`, which `tokenizer.py` imports from `utils` although
`utils.py` does not define it), and `jackSyntaxError` with its message
string.  `tokenizerError msg` is the `TokenizerError(msg)` value the raise
sites in `_get_typed_token_list` intend to construct; since the class is
defined nowhere in the repository, no embedded definition ever produces this
value — it appears only in statements saying that the intended lexical
diagnostics are never raised. -/
inductive Err where
  | outOfFuel
  | typeError
  | attributeError
  | indexError
  | nameError
  | tokenizerError (msg : String)
  | jackSyntaxError (msg : String)
deriving DecidableEq, Repr

/-! ## Python `int(...)` (used by `Tokenizer._get_typed_token_list`)

Python `int(token)` strips surrounding whitespace, accepts one optional sign,
and then a nonempty run of decimal digits in which single underscores may occur
between two digits.  (The tokens produced by the lexer never contain
whitespace or signs, because whitespace and `+`/`-` terminate the pending
token, but the model follows `int` anyway.)  Only ASCII digits are modelled,
matching the ASCII sources this toolchain processes. -/

/-- Parse the remaining characters of a Python integer literal after the first
digit, allowing a single underscore between two digits. -/
def pyIntGo (acc : Nat) : List Char → Option Nat
  | [] => some acc
  | c :: rest =>
    if c.isDigit then pyIntGo (10 * acc + (c.toNat - 48)) rest
    else if c = '_' then
      match rest with
      | [] => none
      | d :: rest2 => if d.isDigit then pyIntGo (10 * acc + (d.toNat - 48)) rest2 else none
    else none

/-- Parse a nonempty digit run (with embedded underscores) into its value. -/
def pyIntCore : List Char → Option Nat
  | [] => none
  | c :: rest => if c.isDigit then pyIntGo (c.toNat - 48) rest else none

/-- Membership in Python `string.whitespace` (`' \t\n\r\x0b\x0c'`). -/
def pyIsSpace (c : Char) : Bool :=
  c == ' ' || c == '\t' || c == '\n' || c == '\r' || c == '\x0b' || c == '\x0c'

/-- Strip leading and trailing Python whitespace (what `int` ignores). -/
def pyStrip (s : List Char) : List Char :=
  ((s.dropWhile pyIsSpace).reverse.dropWhile pyIsSpace).reverse

/-- Model of Python `int(token)`: `some` of the value on success, `none` when
`int` raises `ValueError`. -/
def pyIntParse (s : List Char) : Option Int :=
  match pyStrip s with
  | '+' :: rest => (pyIntCore rest).map (fun n => (n : Int))
  | '-' :: rest => (pyIntCore rest).map (fun n => -(n : Int))
  | t => (pyIntCore t).map (fun n => (n : Int))

/-- The value of a digit string (most significant digit first), the fold that
`pyIntGo` computes on plain digit runs. -/
def digitsVal (ds : List Char) : Nat :=
  ds.foldl (fun a c => 10 * a + (c.toNat - 48)) 0

/-! ## The lexer (`tokenizer.py`) -/

/-- `Tokenizer.KEYWORDS` (as a list; only membership is used). -/
def KEYWORDS : List String :=
  ["class", "constructor", "function", "method", "field", "static",
   "var", "int", "char", "boolean", "void", "true", "false", "null", "this",
   "let", "do", "if", "else", "while", "return"]

/-- `Tokenizer.SYMBOLS` (as a list; only membership is used). -/
def SYMBOLS : List Char :=
  ['{', '}', '(', ')', '[', ']', '.', ',', ';', '+', '-', '*', '/', '&',
   '|', '<', '>', '=', '~']

/-- `token in Tokenizer.KEYWORDS`. -/
def isKeyword (token : List Char) : Bool :=
  KEYWORDS.contains (String.mk token)

/-- One character of a valid identifier: `c.isalnum() or c == '_'` (ASCII). -/
def validIdentChar (c : Char) : Bool :=
  c.isAlphanum || c == '_'

/-- `Tokenizer._get_typed_token_list`, applied to the flushed pending-token
buffer `token` (the state reset of `token_chars` is performed by the caller,
`nextChar`): classify the flushed text as keyword / integerConstant /
identifier.  An empty buffer yields no token.  The failure branches execute
`raise TokenizerError(f"...")`, but `TokenizerError` is defined nowhere in
the repository (`utils.py` does not define it although `tokenizer.py`
imports it), so evaluating the name crashes with `NameError` before any
message is formatted and the intended diagnostics are never produced.
Strictly, `from utils import rf_process, TokenizerError` already fails at
module load; as for `NoMoreTokens`, the model lets the module load with the
missing name unbound, surfacing the crash at the raise site. -/
def getTypedTokenList (_lineCount : Nat) (token : List Char) : Except Err (List Token) :=
  if token = [] then .ok []
  else if isKeyword token then .ok [⟨"keyword", String.mk token⟩]
  else
    match pyIntParse token with
    | some i =>
      if 0 ≤ i ∧ i ≤ 32767 then .ok [⟨"integerConstant", String.mk token⟩]
      else .error .nameError
    | none =>
      match token with
      | [] => .error .indexError
      | c :: _ =>
        if c.isDigit then
          .error .nameError
        else if token.all validIdentChar then .ok [⟨"identifier", String.mk token⟩]
        else .error .nameError

/-- The mutable state of a `Tokenizer` object, minus the token deque (which
lives in `TokState`): current line buffer, cursor `p` (starts at `-1`),
characters of the pending token, comment/string mode flags, skip counter and
eof flag, plus the not-yet-read lines of the source file. -/
structure LexState where
  filename : String
  source : List (List Char)
  lineCount : Nat
  buffer : List Char
  skip : Nat
  p : Int
  tokenChars : List Char
  inComment : Bool
  multiline : Bool
  inString : Bool
  eof : Bool
deriving DecidableEq, Repr

/-- Python `self.buffer[p:p+2] == ab` for a two-character string `ab`. -/
def slice2 (buf : List Char) (k : Nat) (a b : Char) : Bool :=
  match buf.drop k with
  | x :: y :: _ => x == a && y == b
  | _ => false

/-- `Tokenizer._next_char`: advance the cursor, honour the skip counter, read
the next line when the previous one is exhausted (setting `eof` when
`readline` returns the empty string), then process one character according to
the comment/string/normal mode, returning the zero, one or two tokens the
character completed. -/
def nextChar (st0 : LexState) : Except Err (LexState × List Token) :=
  let st1 := { st0 with p := st0.p + 1 }
  if 0 < st1.skip then .ok ({ st1 with skip := st1.skip - 1 }, [])
  else
    match (if st1.p = (st1.buffer.length : Int) then
             let st2 := { st1 with lineCount := st1.lineCount + 1 }
             match st2.source with
             | [] => Sum.inl ({ st2 with eof := true }, ([] : List Token))
             | l :: rest =>
               if l = [] then Sum.inl ({ st2 with source := rest, buffer := [], eof := true }, [])
               else Sum.inr { st2 with source := rest, buffer := l, p := 0 }
           else Sum.inr st1) with
    | Sum.inl r => .ok r
    | Sum.inr st =>
      match st.buffer.get? st.p.toNat with
      | none => .error .indexError
      | some char =>
        if st.inComment then
          if st.multiline then
            if slice2 st.buffer st.p.toNat '*' '/' then
              .ok ({ st with inComment := false, skip := 1 }, [])
            else .ok (st, [])
          else
            if char = '\n' then .ok ({ st with inComment := false }, [])
            else .ok (st, [])
        else if st.inString then
          if char = '"' || char = '\n' then
            .ok ({ st with inString := false, tokenChars := [] },
                 [⟨"stringConstant", String.mk st.tokenChars⟩])
          else .ok ({ st with tokenChars := st.tokenChars ++ [char] }, [])
        else if slice2 st.buffer st.p.toNat '/' '*' then
          match getTypedTokenList st.lineCount st.tokenChars with
          | .error e => .error e
          | .ok ts => .ok ({ st with inComment := true, multiline := true, skip := 1, tokenChars := [] }, ts)
        else if slice2 st.buffer st.p.toNat '/' '/' then
          match getTypedTokenList st.lineCount st.tokenChars with
          | .error e => .error e
          | .ok ts => .ok ({ st with inComment := true, multiline := false, skip := 1, tokenChars := [] }, ts)
        else if char = '"' then .ok ({ st with inString := true }, [])
        else if SYMBOLS.contains char then
          match getTypedTokenList st.lineCount st.tokenChars with
          | .error e => .error e
          | .ok ts => .ok ({ st with tokenChars := [] }, ts ++ [⟨"symbol", String.mk [char]⟩])
        else if pyIsSpace char then
          match getTypedTokenList st.lineCount st.tokenChars with
          | .error e => .error e
          | .ok ts => .ok ({ st with tokenChars := [] }, ts)
        else .ok ({ st with tokenChars := st.tokenChars ++ [char] }, [])

/-- The `while not self.eof` loop in `Tokenizer.next` (the branch taken when
the deque of buffered tokens is empty): repeat `_next_char` until it yields
tokens or `eof` is set.  `ok ([], st)` models `next` returning `None`. -/
def lexLoop : Nat → LexState → Except Err (List Token × LexState)
  | 0, _ => .error .outOfFuel
  | fuel + 1, st =>
    if st.eof then .ok ([], st)
    else
      match nextChar st with
      | .error e => .error e
      | .ok (st2, []) => lexLoop fuel st2
      | .ok (st2, t :: ts) => .ok (t :: ts, st2)

/-- A `Tokenizer` object: lexer state plus the `buffered_tokens` deque
(leftmost element first). -/
structure TokState where
  lex : LexState
  buffered : List Token
deriving DecidableEq, Repr

/-- `Tokenizer.next`: pop the leftmost buffered token if the deque is
nonempty, otherwise pull from the character loop, returning the first produced
token and stashing the rest (`self.buffered_tokens += tokens[1:]`); `none`
models returning `None` at end of input. -/
def tokNext (fuel : Nat) (ts : TokState) : Except Err (Option Token × TokState) :=
  match ts.buffered with
  | t :: rest => .ok (some t, ⟨ts.lex, rest⟩)
  | [] =>
    match lexLoop fuel ts.lex with
    | .error e => .error e
    | .ok ([], lex2) => .ok (none, ⟨lex2, []⟩)
    | .ok (t :: extras, lex2) => .ok (some t, ⟨lex2, extras⟩)

/-- `Tokenizer.peek(index)`: `while size <= index: token = self.next(); if
token is None: return None; self.buffered_tokens.appendleft(token)`, then
return `self.buffered_tokens[index]`.  The loop is given explicit fuel, one
unit per iteration; `outOfFuel` for every fuel means the loop never exits. -/
def tokPeek : Nat → Nat → TokState → Except Err (Option Token × TokState)
  | 0, _, _ => .error .outOfFuel
  | fuel + 1, index, ts =>
    if ts.buffered.length ≤ index then
      match tokNext fuel ts with
      | .error e => .error e
      | .ok (none, ts2) => .ok (none, ts2)
      | .ok (some t, ts2) => tokPeek fuel index ⟨ts2.lex, t :: ts2.buffered⟩
    else .ok (ts.buffered.get? index, ts)

/-- A fresh `Tokenizer(source_file, filename)`: `line_count = 0`, empty
buffer, `p = -1`, no pending characters, all mode flags off, empty deque. -/
def initLex (filename : String) (src : List (List Char)) : LexState :=
  { filename := filename, source := src, lineCount := 0, buffer := [], skip := 0, p := -1,
    tokenChars := [], inComment := false, multiline := false, inString := false, eof := false }

/-- A fresh `Tokenizer` including its (empty) token deque. -/
def initTok (filename : String) (src : List (List Char)) : TokState :=
  ⟨initLex filename src, []⟩

/-! ## The type-name registry (`intermediates.ClassName`) -/

/-- `ClassName.VALID_CLASS_NAMES` is a Python set of strings; it is modelled
as the list of registered names, of which only membership is used. -/
abbrev Registry := List String

/-- The initial value of `ClassName.VALID_CLASS_NAMES`. -/
def initialClassNames : Registry :=
  ["Math", "String", "Array", "Output", "Screen", "Keyboard", "Memory", "Sys"]

/-- `ClassName.add(new_name)` (set insertion, modelled on the list). -/
def classNameAdd (name : String) (reg : Registry) : Registry :=
  name :: reg

/-! ## The two terminal XML serializers (C10)

`generate_tokenized_xml` in `tokenizer.py` writes one line per token;
`TerminalNode.write` in `nodes.py` writes one line per terminal node at a
given depth.  Both are modelled character-exactly. -/

/-- Python `s.replace(c, rep)` for a one-character pattern `c` (all the
patterns used by the serializers are one character long, for which
left-to-right non-overlapping replacement is replacement of every
occurrence). -/
def replaceChar (c : Char) (rep : List Char) : List Char → List Char
  | [] => []
  | x :: xs => (if x = c then rep else [x]) ++ replaceChar c rep xs

/-- The escaping chain of `generate_tokenized_xml`:
`token.name.replace("&", "&amp;").replace("<", "&lt;").replace(">", "&gt;").replace('"', "&quot;")`. -/
def escapeTokenizer (s : List Char) : List Char :=
  replaceChar '"' "&quot;".data
    (replaceChar '>' "&gt;".data
      (replaceChar '<' "&lt;".data
        (replaceChar '&' "&amp;".data s)))

/-- The escaping chain of `TerminalNode.write`:
`self.content.replace("&", "&amp;").replace("<", "&lt;").replace(">", "&gt;").replace('"', "&quot;")`. -/
def escapeNode (s : List Char) : List Char :=
  replaceChar '"' "&quot;".data
    (replaceChar '>' "&gt;".data
      (replaceChar '<' "&lt;".data
        (replaceChar '&' "&amp;".data s)))

/-- The line `generate_tokenized_xml` writes for one token:
`f"<{token.type}> {escaped} </{token.type}>\n"`. -/
def tokenizedXmlLine (t : Token) : List Char :=
  "<".data ++ t.type.data ++ "> ".data ++ escapeTokenizer t.name.data
    ++ " </".data ++ t.type.data ++ ">\n".data

/-- A `TerminalNode` of `nodes.py` (kind plus literal text, no children). -/
structure TerminalNodeM where
  type : String
  content : String
deriving DecidableEq, Repr

/-- `TerminalNode.from_token(t)`: `cls(t.type, t.name)`. -/
def TerminalNodeM.fromToken (t : Token) : TerminalNodeM :=
  ⟨t.type, t.name⟩

/-- Python `"  " * depth`. -/
def indentChars (depth : Nat) : List Char :=
  (List.replicate depth "  ".data).flatten

/-- The line `TerminalNode.write` emits at a given depth:
`"  " * depth + f"<{self.type}> {escaped} </{self.type}>\n"`. -/
def TerminalNodeM.writeLine (n : TerminalNodeM) (depth : Nat) : List Char :=
  indentChars depth ++ "<".data ++ n.type.data ++ "> ".data ++ escapeNode n.content.data
    ++ " </".data ++ n.type.data ++ ">\n".data

/-! ## The grammar combinator framework

The repository currently holds two generations of the framework, which the
live import graph mixes: `compilation_engine.py` and `expressions.py` define
the non-terminal rules as subclasses of `base.NonTerminalSyntax` whose
`match(self, tokenizer, index=0)` takes a stream and a keyword argument
(stream-style protocol), while the combinators `OneOf`, `Optional`,
`OptionalOrMore`, `Serial`, `ClassName` from `intermediates.py` and the
terminal classes of `terminals.py` implement `match(self, t)` on a single
token (token-style protocol).  Every `match` call the live code performs
starts token-style (the combinators peek a token and pass it on), so a
token-style call reaching a stream-style implementation passes the token
through as the `tokenizer` parameter, and a stream-style implementation
calling a token-style `match` with `index=...` raises
`TypeError: match() got an unexpected keyword argument 'index'` —
modelled as `Err.typeError`.

The grammar is a fixed first-order datatype `Syn`; each constructor records
which Python class the element is an instance of, which fixes its `match` /
`resolve` implementation and protocol. -/

/-- The fifteen non-terminal rule classes (subclasses of
`base.NonTerminalSyntax` in `compilation_engine.py` and `expressions.py`). -/
inductive RuleT where
  | classR | classVarDec | subroutineDec | parameterList | subroutineBody | varDec
  | statements | letStatement | ifStatement | whileStatement | doStatement
  | returnStatement | expression | expressionList | term
deriving DecidableEq, Repr

/-- The `TYPE` class variable of each rule class. -/
def ruleName : RuleT → String
  | .classR => "class"
  | .classVarDec => "classVarDec"
  | .subroutineDec => "subroutineDec"
  | .parameterList => "parameterList"
  | .subroutineBody => "subroutineBody"
  | .varDec => "varDec"
  | .statements => "statements"
  | .letStatement => "letStatement"
  | .ifStatement => "ifStatement"
  | .whileStatement => "whileStatement"
  | .doStatement => "doStatement"
  | .returnStatement => "returnStatement"
  | .expression => "expression"
  | .expressionList => "expressionList"
  | .term => "term"

/-- A grammar element: `kw`/`sym` are `terminals.Keyword`/`terminals.Symbol`,
`ident` covers `terminals.Identifier` and its aliases `VarName` and
`SubroutineName`, `intConst`/`strConst` are `IntegerConstant`/`StringConstant`,
`clsName` is `intermediates.ClassName`, `oneOf` is `intermediates.OneOf`
(carrying `self.type` when the subclass sets it, `none` for a plain `OneOf`
and for subclasses that do not set the instance attribute), `subCall` is
`expressions.SubroutineCall`, `serial`/`opt`/`optMore` are
`Serial`/`Optional`/`OptionalOrMore`, and `rule r` is an instance of the
stream-style rule class `r`. -/
inductive Syn where
  | kw (name : String)
  | sym (name : String)
  | ident
  | intConst
  | strConst
  | clsName
  | oneOf (typeName : Option String) (opts : List Syn)
  | subCall
  | serial (seq : List Syn)
  | opt (seq : List Syn)
  | optMore (seq : List Syn)
  | rule (r : RuleT)

/-- `Type_()` from `intermediates.py`: `'int' | 'char' | 'boolean' | className`
with `self.type = "type"`. -/
def typeSyn : Syn :=
  .oneOf (some "type") [.kw "int", .kw "char", .kw "boolean", .clsName]

/-- First option of `expressions.SubroutineCall`:
`subroutineName '(' expressionList ')'`. -/
def subCallUnqualified : Syn :=
  .serial [.ident, .sym "(", .rule .expressionList, .sym ")"]

/-- Second option of `expressions.SubroutineCall`:
`(className | varName) '.' subroutineName '(' expressionList ')'`. -/
def subCallQualified : Syn :=
  .serial [.oneOf none [.clsName, .ident], .sym ".", .ident, .sym "(",
           .rule .expressionList, .sym ")"]

/-- `self.options` of `expressions.SubroutineCall`. -/
def subCallOptions : List Syn :=
  [subCallUnqualified, subCallQualified]

/-- `_make_syntax` of each rule class, from `compilation_engine.py` and
`expressions.py` (note that the live `Expression` is just `[Term()]`: the
`op term` repetition is commented out in the source). -/
def grammar : RuleT → List Syn
  | .classR =>
      [.kw "class", .clsName, .sym "\x7b", .optMore [.rule .classVarDec],
       .optMore [.rule .subroutineDec], .sym "\x7d"]
  | .classVarDec =>
      [.oneOf none [.kw "static", .kw "field"], typeSyn, .ident,
       .optMore [.sym ",", .ident], .sym ";"]
  | .subroutineDec =>
      [.oneOf none [.kw "constructor", .kw "function", .kw "method"],
       .oneOf none [.kw "void", typeSyn], .ident, .sym "(",
       .rule .parameterList, .sym ")", .rule .subroutineBody]
  | .parameterList =>
      [.opt [.serial [typeSyn, .ident], .optMore [.sym ",", typeSyn, .ident]]]
  | .subroutineBody =>
      [.sym "\x7b", .optMore [.rule .varDec], .rule .statements, .sym "\x7d"]
  | .varDec =>
      [.kw "var", typeSyn, .ident, .optMore [.sym ",", .ident], .sym ";"]
  | .statements =>
      [.optMore [.oneOf none [.rule .letStatement, .rule .ifStatement,
        .rule .whileStatement, .rule .doStatement, .rule .returnStatement]]]
  | .letStatement =>
      [.kw "let", .ident, .opt [.sym "[", .rule .expression, .sym "]"],
       .sym "=", .rule .expression, .sym ";"]
  | .ifStatement =>
      [.kw "if", .sym "(", .rule .expression, .sym ")", .sym "\x7b",
       .rule .statements, .sym "\x7d",
       .opt [.kw "else", .sym "\x7b", .rule .statements, .sym "\x7d"]]
  | .whileStatement =>
      [.kw "while", .sym "(", .rule .expression, .sym ")", .sym "\x7b",
       .rule .statements, .sym "\x7d"]
  | .doStatement =>
      [.kw "do", .subCall, .sym ";"]
  | .returnStatement =>
      [.kw "return", .opt [.rule .expression], .sym ";"]
  | .expression =>
      [.rule .term]
  | .expressionList =>
      [.opt [.rule .expression, .optMore [.sym ",", .rule .expression]]]
  | .term =>
      [.oneOf none [.intConst, .strConst,
        .oneOf (some "keywordConstant") [.kw "true", .kw "false", .kw "null", .kw "this"],
        .ident,
        .serial [.ident, .sym "[", .rule .expression, .sym "]"],
        .subCall,
        .serial [.sym "(", .rule .expression, .sym ")"],
        .serial [.oneOf (some "unaryOp") [.sym "-", .sym "~"], .rule .term]]]

/-- Python `o.type` as used by `OneOf.resolve` when building its failure
message: the `type` property of the terminal classes returns `expected_type`;
`Serial` sets `self.type = "Serial"`; `OneOf` subclasses that assign
`self.type` return it, a plain `OneOf` and `expressions.SubroutineCall` (whose
class variable is named `TYPE`, not `type`) have no such attribute and raise
`AttributeError`; `Optional`/`OptionalOrMore` have no `type` attribute; the
rule classes have a `type` property returning their `TYPE`. -/
def synTypeName : Syn → Except Err String
  | .kw _ => .ok "keyword"
  | .sym _ => .ok "symbol"
  | .ident => .ok "identifier"
  | .intConst => .ok "integerConstant"
  | .strConst => .ok "stringConstant"
  | .clsName => .ok "identifier"
  | .oneOf (some tn) _ => .ok tn
  | .oneOf none _ => .error .attributeError
  | .subCall => .error .attributeError
  | .serial _ => .ok "Serial"
  | .opt _ => .error .attributeError
  | .optMore _ => .error .attributeError
  | .rule r => .ok (ruleName r)

/-- The generator `", ".join((o.type) for o in self.options)` evaluates
`o.type` left to right, so the first missing attribute aborts the join. -/
def synTypeNames : List Syn → Except Err (List String)
  | [] => .ok []
  | o :: rest =>
    match synTypeName o with
    | .error e => .error e
    | .ok n =>
      match synTypeNames rest with
      | .error e => .error e
      | .ok ns => .ok (n :: ns)

/-- A stream-style `match(self, tokenizer, index=0)` of a rule class, invoked
through a token-style call site, so with a `Token` (or `None`) bound to the
`tokenizer` parameter.  Its body is `self.syntax[0].match(tokenizer,
index=index)`: if the first grammar element is itself a rule class the call
recurses, otherwise the element is token-style and the keyword argument
`index` raises `TypeError`. -/
def matchRuleTok : Nat → RuleT → Option Token → Except Err Bool
  | 0, _, _ => .error .outOfFuel
  | fuel + 1, r, t? =>
    match (grammar r).head? with
    | none => .error .indexError
    | some (.rule r2) => matchRuleTok fuel r2 t?
    | some _ => .error .typeError

mutual

/-- Token-style `o.match(t)` dispatched on the class of `o`; `t` may be
`None` (then the terminal implementations raise `AttributeError` reading
`t.type`).  `IntegerConstant` and `StringConstant` never override `match`,
so they inherit `TerminalSyntax.match`'s exact comparison
`(self.expected_type == t.type) and (self.expected_name == t.name)` with
`expected_name` still `None`; Python's `None == t.name` is `False` for every
token name (a `str`), so these two terminals match no token at all.  One
unit of fuel is consumed at each recursive step, so the result of a terminal
match does not depend on the fuel; running out of fuel is reported as
`outOfFuel`. -/
def matchTok (reg : Registry) : Nat → Syn → Option Token → Except Err Bool
  | _, .kw _, none => .error .attributeError
  | _, .kw n, some t => .ok (t.type == "keyword" && t.name == n)
  | _, .sym _, none => .error .attributeError
  | _, .sym n, some t => .ok (t.type == "symbol" && t.name == n)
  | _, .ident, none => .error .attributeError
  | _, .ident, some t => .ok (t.type == "identifier")
  | _, .intConst, none => .error .attributeError
  | _, .intConst, some t => .ok (t.type == "integerConstant" && (none : Option String) == some t.name)
  | _, .strConst, none => .error .attributeError
  | _, .strConst, some t => .ok (t.type == "stringConstant" && (none : Option String) == some t.name)
  | _, .clsName, none => .error .attributeError
  | _, .clsName, some t => .ok (t.type == "identifier" && reg.contains t.name)
  | 0, .oneOf _ _, _ => .error .outOfFuel
  | fuel + 1, .oneOf _ opts, t? => matchAnyTok reg fuel opts t?
  | 0, .subCall, _ => .error .outOfFuel
  | fuel + 1, .subCall, t? => matchAnyTok reg fuel subCallOptions t?
  | 0, .serial _, _ => .error .outOfFuel
  | fuel + 1, .serial seq, t? =>
    match seq with
    | [] => .error .indexError
    | s0 :: _ => matchTok reg fuel s0 t?
  | 0, .opt _, _ => .error .outOfFuel
  | fuel + 1, .opt seq, t? =>
    match seq with
    | [] => .error .indexError
    | s0 :: _ => matchTok reg fuel s0 t?
  | 0, .optMore _, _ => .error .outOfFuel
  | fuel + 1, .optMore seq, t? =>
    match seq with
    | [] => .error .indexError
    | s0 :: _ => matchTok reg fuel s0 t?
  | fuel, .rule r, t? => matchRuleTok fuel r t?

/-- `any(o.match(t) for o in self.options)`: short-circuit disjunction in
declaration order, propagating the first exception. -/
def matchAnyTok (reg : Registry) : Nat → List Syn → Option Token → Except Err Bool
  | _, [], _ => .ok false
  | 0, _ :: _, _ => .error .outOfFuel
  | fuel + 1, o :: rest, t? =>
    match matchTok reg fuel o t? with
    | .error e => .error e
    | .ok true => .ok true
    | .ok false => matchAnyTok reg fuel rest t?

end

/-! ## Resolution (`resolve` methods) -/

/-- A parse tree node (`nodes.py`): a `TerminalNode` (kind + literal text) or
a `NonTerminalNode` (rule name + ordered children). -/
inductive Node where
  | term (type : String) (content : String)
  | nonterm (type : String) (children : List Node)

/-- The prefix `f"{tokenizer.filename} Line {tokenizer.line_count}: "` that
`JackSyntaxError.__init__` (base.py) puts before its message. -/
def linePref (lx : LexState) : String :=
  lx.filename ++ " Line " ++ toString lx.lineCount ++ ": "

/-- Raising `JackSyntaxError(tokenizer, msg)`.  (`intermediates.py` and
`terminals.py` import `JackSyntaxError` from `utils`, which does not define
it; the only `JackSyntaxError` class in the repository is the one in
`base.py`, which this model binds the name to.) -/
def jackErr (lx : LexState) (msg : String) : Err :=
  .jackSyntaxError (linePref lx ++ msg)

mutual

/-- `resolve(tokenizer)` dispatched on the class of the element.

Terminals (`terminals.py`, `intermediates.ClassName`): `t = tokenizer.next()`
then `_validate_type` (and `_validate_name` for `Keyword`/`Symbol`, the
registry check for `ClassName`); when `next` returned `None`, reading
`t.type` inside `_validate_type` raises `AttributeError`.  A failed
validation also ends in `AttributeError`, not the intended
`JackSyntaxError`: `resolve` passes `tokenizer.line_count` (an `int`) where
`_create_syntax_error` expects the tokenizer, so building the message dies
at `tokenizer.filename`.  (`ClassName.resolve` raises its registry error
through the real tokenizer, so that one is a proper `JackSyntaxError`.)

`Serial.resolve` resolves its elements in order.  `Optional.resolve` peeks one
token, calls `self.seq[0].match(first_token)` and resolves the whole sequence
only on a match.  `OptionalOrMore.resolve` repeats that until the first
element stops matching.  `OneOf.resolve` is `oneOfGo`.
`SubroutineCall.resolve` (expressions.py) peeks the second token
(`peek(index=1)`) and commits to the qualified option exactly when that token
matches `Symbol(".")`.  A rule class (base.py) resolves its cached grammar
elements in order and wraps the collected children in one non-terminal node.

One unit of fuel is consumed at each recursive step of the combinators, so a
terminal resolution does not depend on the fuel beyond what `tokNext` needs;
running out of fuel is reported as `outOfFuel`. -/
def resolveSyn (reg : Registry) : Nat → Syn → TokState → Except Err (List Node × TokState)
  | fuel, .kw n, ts =>
    match tokNext fuel ts with
    | .error e => .error e
    | .ok (none, _) => .error .attributeError
    | .ok (some t, ts2) =>
      if t.type = "keyword" then
        if t.name = n then .ok ([.term t.type t.name], ts2)
        else .error .attributeError
      else .error .attributeError
  | fuel, .sym n, ts =>
    match tokNext fuel ts with
    | .error e => .error e
    | .ok (none, _) => .error .attributeError
    | .ok (some t, ts2) =>
      if t.type = "symbol" then
        if t.name = n then .ok ([.term t.type t.name], ts2)
        else .error .attributeError
      else .error .attributeError
  | fuel, .ident, ts =>
    match tokNext fuel ts with
    | .error e => .error e
    | .ok (none, _) => .error .attributeError
    | .ok (some t, ts2) =>
      if t.type = "identifier" then .ok ([.term t.type t.name], ts2)
      else .error .attributeError
  | fuel, .intConst, ts =>
    match tokNext fuel ts with
    | .error e => .error e
    | .ok (none, _) => .error .attributeError
    | .ok (some t, ts2) =>
      if t.type = "integerConstant" then .ok ([.term t.type t.name], ts2)
      else .error .attributeError
  | fuel, .strConst, ts =>
    match tokNext fuel ts with
    | .error e => .error e
    | .ok (none, _) => .error .attributeError
    | .ok (some t, ts2) =>
      if t.type = "stringConstant" then .ok ([.term t.type t.name], ts2)
      else .error .attributeError
  | fuel, .clsName, ts =>
    match tokNext fuel ts with
    | .error e => .error e
    | .ok (none, _) => .error .attributeError
    | .ok (some t, ts2) =>
      if t.type = "identifier" then
        if reg.contains t.name then .ok ([.term t.type t.name], ts2)
        else .error (jackErr ts2.lex "Expected valid class name")
      else .error .attributeError
  | 0, .oneOf _ _, _ => .error .outOfFuel
  | fuel + 1, .oneOf _ opts, ts => oneOfGo reg fuel opts opts ts none
  | 0, .subCall, _ => .error .outOfFuel
  | fuel + 1, .subCall, ts =>
    match tokPeek (fuel + 1) 1 ts with
    | .error e => .error e
    | .ok (none, _) => .error .attributeError
    | .ok (some t, ts2) =>
      if t.type == "symbol" && t.name == "." then resolveSyn reg fuel subCallQualified ts2
      else resolveSyn reg fuel subCallUnqualified ts2
  | 0, .serial _, _ => .error .outOfFuel
  | fuel + 1, .serial seq, ts => resolveList reg fuel seq ts
  | 0, .opt _, _ => .error .outOfFuel
  | fuel + 1, .opt seq, ts =>
    match tokPeek (fuel + 1) 0 ts with
    | .error e => .error e
    | .ok (t?, ts2) =>
      match seq with
      | [] => .error .indexError
      | s0 :: srest =>
        match matchTok reg (fuel + 1) s0 t? with
        | .error e => .error e
        | .ok true => resolveList reg fuel (s0 :: srest) ts2
        | .ok false => .ok ([], ts2)
  | 0, .optMore _, _ => .error .outOfFuel
  | fuel + 1, .optMore seq, ts =>
    match tokPeek (fuel + 1) 0 ts with
    | .error e => .error e
    | .ok (t?, ts2) =>
      match seq with
      | [] => .error .indexError
      | s0 :: srest =>
        match matchTok reg (fuel + 1) s0 t? with
        | .error e => .error e
        | .ok true =>
          match resolveList reg fuel (s0 :: srest) ts2 with
          | .error e => .error e
          | .ok (ns, ts3) =>
            match resolveSyn reg fuel (.optMore seq) ts3 with
            | .error e => .error e
            | .ok (ns2, ts4) => .ok (ns ++ ns2, ts4)
        | .ok false => .ok ([], ts2)
  | 0, .rule _, _ => .error .outOfFuel
  | fuel + 1, .rule r, ts =>
    match resolveList reg fuel (grammar r) ts with
    | .error e => .error e
    | .ok (children, ts2) => .ok ([.nonterm (ruleName r) children], ts2)

/-- Resolve a list of elements in order, concatenating the produced nodes
(this is both `Serial.resolve` and the child-collection loop of
`base.NonTerminalSyntax.resolve`). -/
def resolveList (reg : Registry) : Nat → List Syn → TokState → Except Err (List Node × TokState)
  | _, [], ts => .ok ([], ts)
  | 0, _ :: _, _ => .error .outOfFuel
  | fuel + 1, s :: rest, ts =>
    match resolveSyn reg fuel s ts with
    | .error e => .error e
    | .ok (ns, ts2) =>
      match resolveList reg fuel rest ts2 with
      | .error e => .error e
      | .ok (ns2, ts3) => .ok (ns ++ ns2, ts3)

/-- The loop of `intermediates.OneOf.resolve`: peek one token, resolve the
first option whose `match` succeeds; if none matches, raise a
`JackSyntaxError` naming `o.type` of every option (`full`) and the last
peeked token (`ft`, `None` before the first iteration, printed as Python
does). -/
def oneOfGo (reg : Registry) : Nat → List Syn → List Syn → TokState → Option Token → Except Err (List Node × TokState)
  | _, full, [], ts, ft =>
    match synTypeNames full with
    | .error e => .error e
    | .ok ns =>
      .error (jackErr ts.lex ("Must be one of the following: "
        ++ String.intercalate ", " ns ++ ". Instead found " ++ optTokenStr ft ++ "."))
  | 0, _, _ :: _, _, _ => .error .outOfFuel
  | fuel + 1, full, o :: rest, ts, _ =>
    match tokPeek (fuel + 1) 0 ts with
    | .error e => .error e
    | .ok (t?, ts2) =>
      match matchTok reg (fuel + 1) o t? with
      | .error e => .error e
      | .ok true => resolveSyn reg fuel o ts2
      | .ok false => oneOfGo reg fuel full rest ts2 t?

end

/-! ## The per-class grammar cache (`base.NonTerminalSyntax.syntax`) -/

/-- The joint state of the `_syntax_cache` class variables of all rule
classes: for each class either `none` (still the inherited `None`) or the
cached list.  `CacheState` is a function so that distinct classes have
independent slots, as distinct Python class attributes do. -/
def CacheState := RuleT → Option (List Syn)

/-- At process start every class inherits `_syntax_cache = None`. -/
def initialCache : CacheState := fun _ => none

/-- One evaluation of the `syntax` property on an instance of class `r`:
`if cls._syntax_cache is None: cls._syntax_cache = cls._make_syntax()` then
`return cls._syntax_cache`.  Returns the grammar handed to the caller, the
updated cache state, and whether this access invoked `_make_syntax`. -/
def syntaxAccess (cs : CacheState) (r : RuleT) : List Syn × CacheState × Bool :=
  match cs r with
  | some g => (g, cs, false)
  | none => (grammar r, fun r2 => if r2 = r then some (grammar r) else cs r2, true)

/-- A sequence of `syntax` accesses performed by arbitrary instances during
and between parses: final cache state plus the log of which accesses built
their grammar. -/
def accessRun : CacheState → List RuleT → CacheState × List (RuleT × Bool)
  | cs, [] => (cs, [])
  | cs, r :: rs =>
    let step := syntaxAccess cs r
    let rest := accessRun step.2.1 rs
    (rest.1, (r, step.2.2) :: rest.2)

/-- How many accesses in a log constructed the grammar of class `r`. -/
def buildCount (r : RuleT) (log : List (RuleT × Bool)) : Nat :=
  log.countP (fun e => e.1 == r && e.2)

/-- Invariant of the cache: each slot is either unset or holds exactly the
grammar `_make_syntax` produces for that class. -/
def CacheOk (cs : CacheState) : Prop :=
  ∀ r, cs r = none ∨ cs r = some (grammar r)

/-! ## Theorems -/

theorem cacheOk_initial : CacheOk initialCache := fun _ => Or.inl rfl

theorem syntaxAccess_fst_of_ok (cs : CacheState) (r : RuleT) (h : CacheOk cs) :
    (syntaxAccess cs r).1 = grammar r := by
  rcases h r with h2 | h2 <;> simp [syntaxAccess, h2]

theorem cacheOk_after (cs : CacheState) (r : RuleT) (h : CacheOk cs) :
    CacheOk (syntaxAccess cs r).2.1 := by
  rcases h r with h2 | h2 <;> simp only [syntaxAccess, h2]
  · intro r2
    by_cases h3 : r2 = r
    · subst h3; simp
    · simp only [if_neg h3]; exact h r2
  · exact h

theorem buildCount_zero (rs : List RuleT) :
    ∀ (cs : CacheState) (r : RuleT) (g : List Syn), cs r = some g →
      buildCount r (accessRun cs rs).2 = 0 := by
  induction rs with
  | nil => intro cs r g _; rfl
  | cons r2 rs ih =>
    intro cs r g h
    rcases h2 : cs r2 with _ | g2
    · have hne : r2 ≠ r := by
        intro he; rw [he, h] at h2; exact Option.noConfusion h2
      simp only [accessRun, buildCount, syntaxAccess, h2, List.countP_cons]
      have : ((r2 == r) && true) = false := by simp [hne]
      simp only [this, if_false, Nat.add_zero, cond_false]
      have hr : r ≠ r2 := fun he => hne he.symm
      have hcs2 : (fun r3 => if r3 = r2 then some (grammar r2) else cs r3) r = some g := by
        show (if r = r2 then some (grammar r2) else cs r) = some g
        rw [if_neg hr]; exact h
      exact ih _ r g hcs2
    · simp only [accessRun, buildCount, syntaxAccess, h2, List.countP_cons]
      have : ((r2 == r) && false) = false := by simp
      simp only [this, if_false, Nat.add_zero, cond_false]
      exact ih cs r g h

theorem buildCount_le_one (rs : List RuleT) :
    ∀ (cs : CacheState) (r : RuleT), buildCount r (accessRun cs rs).2 ≤ 1 := by
  induction rs with
  | nil => intro cs r; exact Nat.zero_le 1
  | cons r2 rs ih =>
    intro cs r
    rcases h2 : cs r2 with _ | g2
    · by_cases h3 : r2 = r
      · subst h3
        have tail0 : buildCount r2 (accessRun (fun r3 => if r3 = r2 then some (grammar r2) else cs r3) rs).2 = 0 := by
          apply buildCount_zero rs _ r2 (grammar r2)
          simp
        simp only [accessRun, buildCount, syntaxAccess, h2, List.countP_cons] at tail0 ⊢
        simp only [beq_self_eq_true, Bool.and_true, if_true, cond_true]
        omega
      · simp only [accessRun, buildCount, syntaxAccess, h2, List.countP_cons]
        have : ((r2 == r) && true) = false := by simp [h3]
        simp only [this, if_false, Nat.add_zero, cond_false]
        exact ih _ r
    · simp only [accessRun, buildCount, syntaxAccess, h2, List.countP_cons]
      have : ((r2 == r) && false) = false := by simp
      simp only [this, if_false, Nat.add_zero, cond_false]
      exact ih cs r

/-- Claim C9: for every non-terminal rule type, the grammar is constructed at
most once per rule type, on first use, and every access (by any instance of
that type, in any sequence of accesses during or between parses) returns the
identical grammar `_make_syntax` produces for that type — the cache only ever
holds that grammar, so it is static data, never rebuilt. -/
theorem grammar_cached_once_per_rule_type :
    (∀ (cs : CacheState) (r : RuleT), CacheOk cs →
        (syntaxAccess cs r).1 = grammar r ∧ CacheOk (syntaxAccess cs r).2.1) ∧
    (∀ r : RuleT, (syntaxAccess initialCache r).2.2 = true) ∧
    (∀ (rs : List RuleT) (cs : CacheState) (r : RuleT),
        buildCount r (accessRun cs rs).2 ≤ 1) :=
  ⟨fun cs r h => ⟨syntaxAccess_fst_of_ok cs r h, cacheOk_after cs r h⟩,
   fun _ => rfl,
   fun rs cs r => buildCount_le_one rs cs r⟩

/-- Witness for C9 at concrete inputs: the initial cache satisfies the
invariant, the first access to `Term` builds and caches its grammar, and in
the access sequence `[term, term, expression]` the grammar of `term` is built
at most once. -/
theorem grammar_cached_once_per_rule_type_witness :
    ((syntaxAccess initialCache .term).1 = grammar .term ∧
      CacheOk (syntaxAccess initialCache .term).2.1) ∧
    (syntaxAccess initialCache .expression).2.2 = true ∧
    buildCount .term (accessRun initialCache [.term, .term, .expression]).2 ≤ 1 :=
  ⟨grammar_cached_once_per_rule_type.1 initialCache .term (fun _ => Or.inl rfl),
   grammar_cached_once_per_rule_type.2.1 .expression,
   grammar_cached_once_per_rule_type.2.2 [.term, .term, .expression] initialCache .term⟩

/-- Claim C10: for every token, the line written by the tokenizer XML writer
(`generate_tokenized_xml`) is identical to the line `TerminalNode.write`
emits at depth 0 for `TerminalNode.from_token(token)` — same tag shape and
same escaping of `&`, `<`, `>`, `"` — i.e. the two serializers implement the
same terminal-encoding function. -/
theorem tokenizer_and_node_serializers_agree (t : Token) :
    tokenizedXmlLine t = (TerminalNodeM.fromToken t).writeLine 0 := rfl

/-- Claim C8: a `ClassName` element matches a token exactly when it is an
identifier whose name is registered at match time; `resolve` fails with the
`JackSyntaxError` "Expected valid class name" on an unregistered identifier;
`ClassName.add` makes the added name accepted by every subsequent match (the
registry is a class variable shared by all instances, modelled by the single
`reg` argument) and preserves previously accepted names; and the registry is
pre-seeded with the eight built-in library type names. -/
theorem class_name_registry_semantics :
    (∀ (reg : Registry) (fuel : Nat) (t : Token),
        matchTok reg fuel .clsName (some t) = .ok true ↔
          (t.type = "identifier" ∧ t.name ∈ reg)) ∧
    (∀ (reg : Registry) (fuel : Nat) (lx : LexState) (buf : List Token) (t : Token),
        t.type = "identifier" → t.name ∉ reg →
        resolveSyn reg fuel .clsName ⟨lx, t :: buf⟩ =
          .error (jackErr lx "Expected valid class name")) ∧
    (∀ (reg : Registry) (n : String) (fuel : Nat),
        matchTok (classNameAdd n reg) fuel .clsName (some ⟨"identifier", n⟩) = .ok true) ∧
    (∀ (reg : Registry) (n : String) (fuel : Nat) (t : Token),
        matchTok reg fuel .clsName (some t) = .ok true →
        matchTok (classNameAdd n reg) fuel .clsName (some t) = .ok true) ∧
    initialClassNames =
      ["Math", "String", "Array", "Output", "Screen", "Keyboard", "Memory", "Sys"] := by
  refine ⟨?_, ?_, ?_, ?_, rfl⟩
  · intro reg fuel t
    simp [matchTok, List.elem_iff]
  · intro reg fuel lx buf t h1 h2
    have hc : reg.contains t.name = false := by
      rw [Bool.eq_false_iff]
      intro hcc
      exact h2 (List.elem_iff.mp hcc)
    simp [resolveSyn, tokNext, h1, hc, h2]
  · intro reg n fuel
    simp [matchTok, classNameAdd, List.elem_iff]
  · intro reg n fuel t h
    simp only [matchTok, Except.ok.injEq, Bool.and_eq_true, beq_iff_eq, List.elem_iff,
      classNameAdd] at h ⊢
    exact ⟨h.1, List.mem_cons_of_mem n h.2⟩

/-- Claim C1 (code bug): resolving the top-level class rule on the valid
program `class Main { }` (with `Main` registered by the pre-pass, as
`collect_class_names` does) does not succeed and produces no tree: right
after the opening brace, `OptionalOrMore([ClassVarDec()]).resolve` calls
`ClassVarDec.match(first_token)`; that stream-style `match` forwards
`index=0` to the token-style `OneOf.match`, which raises `TypeError`.  Every
valid class reaches this point, so no valid program parses, let alone
round-trips through serialization. -/
theorem class_resolve_raises_type_error :
    resolveSyn ("Main" :: initialClassNames) 50 (.rule .classR)
      (initTok "Main.jack" [("class Main { }\n").data]) = .error .typeError := rfl

/-- Claim C3 (code bug): when the token sequence is exhausted while the class
rule is still incomplete (source `class` and nothing more), the parse does
not abort with the distinct "unfinished program" diagnostic: `Tokenizer.next`
returns `None` instead of raising, `_validate_type` reads `t.type` on `None`,
and the parse dies with `AttributeError`, which is not a `JackSyntaxError`
(in particular not the `"Unfinished script."` one; the `except NoMoreTokens`
handler in `generate_compiled_xml` can never fire — nothing raises
`NoMoreTokens`, which `tokenizer.py` does not even define). -/
theorem exhausted_input_not_reported_as_unfinished :
    resolveSyn ("Main" :: initialClassNames) 50 (.rule .classR)
      (initTok "Main.jack" [("class\n").data]) = .error .attributeError ∧
    ∀ msg : String, Err.attributeError ≠ Err.jackSyntaxError msg :=
  ⟨rfl, fun _ h => Err.noConfusion h⟩

/-- Claim C4 (code bug): `SubroutineCall.resolve` does peek the second token
and commit without backtracking, and the chosen branch is observable: with
first token the integer literal `5`, a second token `.` enters the qualified
option, whose `OneOf([ClassName(), VarName()])` then fails with the
candidate-list error naming both identifier candidates, while a second token
`;` enters the unqualified option, whose `SubroutineName` terminal fails
with `AttributeError` (through the broken `_create_syntax_error(t,
line_num)` call).  But neither `do foo();` nor `do foo.bar();` parses:
resolving the do-statement raises `TypeError` (the statement reaches the
empty `expressionList`, whose `Optional` calls the stream-style
`Expression.match(token)`, which forwards `index=0` into the token-style
`OneOf.match` of `term`). -/
theorem subroutine_call_dispatch_and_do_crash :
    resolveSyn initialClassNames 50 (.rule .doStatement)
      (initTok "F" [("do foo();\n").data]) = .error .typeError ∧
    resolveSyn initialClassNames 50 (.rule .doStatement)
      (initTok "F" [("do foo.bar();\n").data]) = .error .typeError ∧
    resolveSyn initialClassNames 50 .subCall (initTok "F" [("5.x(\n").data])
      = .error (.jackSyntaxError
          "F Line 1: Must be one of the following: identifier, identifier. Instead found integerConstant `5`.") ∧
    resolveSyn initialClassNames 50 .subCall (initTok "F" [("5;\n").data])
      = .error .attributeError :=
  ⟨rfl, rfl, rfl, rfl⟩

/-- The lexer state after `Tokenizer.next()` has produced the token `foo`
from the source line `foo bar\n` (the cursor sits on the separating space). -/
def lexAfterFoo : LexState :=
  { filename := "F", source := [], lineCount := 1, buffer := ("foo bar\n").data,
    skip := 0, p := 3, tokenChars := [], inComment := false, multiline := false,
    inString := false, eof := false }

/-- The `while size <= index` loop of `peek` makes no progress once
`1 ≤ len(buffered_tokens) ≤ index`: `self.next()` pops the leftmost buffered
token and `appendleft` puts it straight back, so the state repeats exactly
and the loop never exits (here for `index = 1` with one buffered token). -/
theorem tokPeek_cycle (fuel : Nat) (lx : LexState) (t : Token) :
    tokPeek fuel 1 ⟨lx, [t]⟩ = .error .outOfFuel := by
  induction fuel with
  | zero => rfl
  | succ f ih =>
    simpa [tokPeek, tokNext] using ih

/-- Claim C2 (code bug): with the source `foo bar` (two tokens remaining) and
a fresh tokenizer, `peek(1)` never terminates, for any amount of fuel: the
first iteration buffers `foo`, after which every iteration pops `foo` via
`next()` and `appendleft`s it back, never reaching `bar`. -/
theorem peek_offset_one_diverges :
    ∀ fuel : Nat, tokPeek fuel 1 (initTok "F" [("foo bar\n").data]) = .error .outOfFuel := by
  intro fuel
  match fuel with
  | 0 | 1 | 2 | 3 | 4 => rfl
  | n + 5 =>
    have step : tokPeek (n + 5) 1 (initTok "F" [("foo bar\n").data]) =
        tokPeek (n + 4) 1 ⟨lexAfterFoo, [⟨"identifier", "foo"⟩]⟩ := rfl
    rw [step]
    exact tokPeek_cycle (n + 4) lexAfterFoo ⟨"identifier", "foo"⟩

/-- Counterexample for claim C5: parsing `let 5 = 1;` (as a statement list)
does not fail with a syntax error carrying a candidate list — it raises
`TypeError` before any `OneOf` failure message can be built (the statement
dispatch calls the stream-style `LetStatement.match(token)`, which forwards
`index=0` into a token-style `match`); and a terminal mismatch (the keyword
terminal `let` meeting the integer literal `5`) does not raise the
expected-vs-actual syntax error either — it raises `AttributeError`, because
`resolve` passes `tokenizer.line_count` where `_create_syntax_error` expects
the tokenizer. -/
theorem let_five_statement_raises_type_error :
    resolveSyn initialClassNames 50 (.rule .statements)
      (initTok "F" [("let 5 = 1;\n").data]) = .error .typeError ∧
    resolveSyn initialClassNames 0 (.kw "let")
      ⟨initLex "F" [], [⟨"integerConstant", "5"⟩]⟩ = .error .attributeError ∧
    ∀ msg : String, Err.typeError ≠ Err.jackSyntaxError msg ∧
      Err.attributeError ≠ Err.jackSyntaxError msg :=
  ⟨rfl, rfl, fun _ => ⟨fun h => Err.noConfusion h, fun h => Err.noConfusion h⟩⟩

/-- The decimal digit character for `n < 10`. -/
def digitChar : Nat → Char
  | 0 => '0' | 1 => '1' | 2 => '2' | 3 => '3' | 4 => '4'
  | 5 => '5' | 6 => '6' | 7 => '7' | 8 => '8' | _ => '9'

/-- Fuel-indexed decimal printer (most significant digit first). -/
def decReprAux : Nat → Nat → List Char
  | 0, _ => []
  | fuel + 1, n =>
    if n < 10 then [digitChar n]
    else decReprAux fuel (n / 10) ++ [digitChar (n % 10)]

/-- Model of Python `str(n)` for a natural number: its decimal digits. -/
def decRepr (n : Nat) : List Char :=
  decReprAux (n + 1) n

theorem digitChar_spec (k : Nat) (h : k < 10) :
    (digitChar k).isDigit = true ∧ (digitChar k).toNat - 48 = k := by
  interval_cases k <;> exact ⟨rfl, rfl⟩

theorem digitsVal_append_one (xs : List Char) (c : Char) :
    digitsVal (xs ++ [c]) = 10 * digitsVal xs + (c.toNat - 48) := by
  simp [digitsVal, List.foldl_append]

theorem decReprAux_spec (fuel : Nat) :
    ∀ n : Nat, n < fuel →
      decReprAux fuel n ≠ [] ∧ (decReprAux fuel n).all Char.isDigit = true ∧
        digitsVal (decReprAux fuel n) = n := by
  induction fuel with
  | zero => intro n h; omega
  | succ f ih =>
    intro n h
    by_cases h10 : n < 10
    · simp only [decReprAux, if_pos h10]
      refine ⟨by simp, ?_, ?_⟩
      · simp [(digitChar_spec n h10).1]
      · simp [digitsVal, (digitChar_spec n h10).2]
    · have hdiv : n / 10 < n := Nat.div_lt_self (by omega) (by omega)
      have hlt : n / 10 < f := by omega
      obtain ⟨ih1, ih2, ih3⟩ := ih (n / 10) hlt
      have hm : n % 10 < 10 := Nat.mod_lt n (by omega)
      simp only [decReprAux, if_neg h10]
      refine ⟨by simp, ?_, ?_⟩
      · simp [List.all_append, ih2, (digitChar_spec (n % 10) hm).1]
      · rw [digitsVal_append_one, ih3, (digitChar_spec (n % 10) hm).2]
        omega

theorem decRepr_spec (n : Nat) :
    decRepr n ≠ [] ∧ (decRepr n).all Char.isDigit = true ∧ digitsVal (decRepr n) = n :=
  decReprAux_spec (n + 1) n (Nat.lt_succ_self n)

theorem pyIntGo_digits (ds : List Char) :
    ∀ acc : Nat, ds.all Char.isDigit = true →
      pyIntGo acc ds = some (ds.foldl (fun a c => 10 * a + (c.toNat - 48)) acc) := by
  induction ds with
  | nil => intro acc _; rfl
  | cons c cs ih =>
    intro acc hall
    simp only [List.all_cons, Bool.and_eq_true] at hall
    rw [List.foldl_cons, pyIntGo.eq_def]
    simp only [hall.1, if_true]
    exact ih _ hall.2

theorem pyIntCore_digits (ds : List Char) (h1 : ds.all Char.isDigit = true) (h2 : ds ≠ []) :
    pyIntCore ds = some (digitsVal ds) := by
  cases ds with
  | nil => exact absurd rfl h2
  | cons c cs =>
    simp only [List.all_cons, Bool.and_eq_true] at h1
    simp only [pyIntCore, h1.1, if_true, digitsVal, List.foldl_cons]
    have h0 : 10 * 0 + (c.toNat - 48) = c.toNat - 48 := by omega
    rw [h0]
    exact pyIntGo_digits cs (c.toNat - 48) h1.2

theorem isDigit_not_space (c : Char) (h : c.isDigit = true) : pyIsSpace c = false := by
  rcases hb : pyIsSpace c with _ | _
  · rfl
  · exfalso
    simp only [pyIsSpace, Bool.or_eq_true, beq_iff_eq] at hb
    rcases hb with ((((h1 | h1) | h1) | h1) | h1) | h1 <;>
      (subst h1; exact absurd h (by decide))

theorem dropWhile_all_false {p : Char → Bool} {l : List Char}
    (h : ∀ c ∈ l, p c = false) : l.dropWhile p = l := by
  cases l with
  | nil => rfl
  | cons c cs =>
    have := h c (List.mem_cons_self c cs)
    simp [List.dropWhile, this]

theorem pyStrip_digits (ds : List Char) (h : ds.all Char.isDigit = true) :
    pyStrip ds = ds := by
  have hmem : ∀ c ∈ ds, pyIsSpace c = false := by
    intro c hc
    exact isDigit_not_space c (by
      rw [List.all_eq_true] at h
      exact h c hc)
  have h1 : ds.dropWhile pyIsSpace = ds := dropWhile_all_false hmem
  have hmem2 : ∀ c ∈ ds.reverse, pyIsSpace c = false := by
    intro c hc
    exact hmem c (List.mem_reverse.mp hc)
  have h2 : ds.reverse.dropWhile pyIsSpace = ds.reverse := dropWhile_all_false hmem2
  simp [pyStrip, h1, h2]

theorem pyIntParse_digits (ds : List Char) (h1 : ds.all Char.isDigit = true) (h2 : ds ≠ []) :
    pyIntParse ds = some ((digitsVal ds : Nat) : Int) := by
  have hstrip : pyStrip ds = ds := pyStrip_digits ds h1
  have hcore : pyIntCore ds = some (digitsVal ds) := pyIntCore_digits ds h1 h2
  cases ds with
  | nil => exact absurd rfl h2
  | cons c cs =>
    have hc : c.isDigit = true := by
      simp only [List.all_cons, Bool.and_eq_true] at h1
      exact h1.1
    have hplus : c ≠ '+' := by rintro rfl; exact absurd hc (by decide)
    have hminus : c ≠ '-' := by rintro rfl; exact absurd hc (by decide)
    unfold pyIntParse
    rw [hstrip]
    split
    · rename_i rest heq
      rw [List.cons.injEq] at heq
      exact absurd heq.1 hplus
    · rename_i rest heq
      rw [List.cons.injEq] at heq
      exact absurd heq.1 hminus
    · rw [hcore]
      rfl

theorem all_digit_not_keyword (ds : List Char) (h : ds.all Char.isDigit = true) :
    isKeyword ds = false := by
  rcases hk : isKeyword ds with _ | _
  · rfl
  · exfalso
    have hmem : String.mk ds ∈ KEYWORDS := by
      have := hk
      simpa [isKeyword, List.elem_iff] using this
    have hforall : ∀ s ∈ KEYWORDS, s.data.all Char.isDigit = false := by decide
    have := hforall (String.mk ds) hmem
    rw [show (String.mk ds).data = ds from rfl, h] at this
    exact Bool.noConfusion this

theorem digit_head_not_keyword (c : Char) (rest : List Char) (h : c.isDigit = true) :
    isKeyword (c :: rest) = false := by
  rcases hk : isKeyword (c :: rest) with _ | _
  · rfl
  · exfalso
    have hmem : String.mk (c :: rest) ∈ KEYWORDS := by
      have := hk
      simpa [isKeyword, List.elem_iff] using this
    have hforall : ∀ s ∈ KEYWORDS, s.data.head?.all (fun x => !x.isDigit) = true := by decide
    have := hforall (String.mk (c :: rest)) hmem
    rw [show (String.mk (c :: rest)).data = c :: rest from rfl] at this
    simp only [List.head?_cons, Option.all_some, Bool.not_eq_true'] at this
    rw [h] at this
    exact Bool.noConfusion this

theorem get?_eq_head?_drop (l : List Char) : ∀ n : Nat, l.get? n = (l.drop n).head? := by
  induction l with
  | nil => intro n; cases n <;> rfl
  | cons c cs ih =>
    intro n
    cases n with
    | zero => rfl
    | succ m => simp only [List.get?_cons_succ, List.drop_succ_cons]; exact ih m

/-- A decimal digit is an ordinary token character for the lexer: not a
slash, not a quote, not a declared symbol, not whitespace. -/
theorem isDigit_plain (c : Char) (h : c.isDigit = true) :
    c ≠ '/' ∧ c ≠ '"' ∧ SYMBOLS.contains c = false ∧ pyIsSpace c = false := by
  refine ⟨?_, ?_, ?_, isDigit_not_space c h⟩
  · rintro rfl; exact absurd h (by decide)
  · rintro rfl; exact absurd h (by decide)
  · rcases hb : SYMBOLS.contains c with _ | _
    · rfl
    · exfalso
      have hmem : c ∈ SYMBOLS := List.elem_iff.mp hb
      have hall : ∀ x ∈ SYMBOLS, x.isDigit = false := by decide
      have := hall c hmem
      rw [h] at this
      exact Bool.noConfusion this

/-- In normal mode, a character that is not a slash, quote, symbol or
whitespace is appended to the pending-token buffer and the cursor moves on. -/
theorem nextChar_plain (st : LexState) (k : Nat) (c : Char) (rest2 : List Char)
    (hskip : st.skip = 0) (hcom : st.inComment = false) (hstr : st.inString = false)
    (hp : st.p + 1 = (k : Int)) (hbuf : st.buffer.drop k = c :: rest2)
    (hc1 : c ≠ '/') (hc2 : c ≠ '"') (hc3 : SYMBOLS.contains c = false)
    (hc4 : pyIsSpace c = false) :
    nextChar st = .ok ({ st with p := st.p + 1, tokenChars := st.tokenChars ++ [c] }, []) := by
  have hklen : k < st.buffer.length := by
    by_contra hge
    push_neg at hge
    rw [List.drop_eq_nil_of_le hge] at hbuf
    exact List.noConfusion hbuf
  have hget : st.buffer.get? k = some c := by
    rw [get?_eq_head?_drop, hbuf]; rfl
  have hpne : ¬ (st.p + 1 = (st.buffer.length : Int)) := by
    rw [hp]
    exact_mod_cast Nat.ne_of_lt hklen
  have hsl1 : slice2 st.buffer k '/' '*' = false := by
    unfold slice2
    rw [hbuf]
    cases rest2 <;> simp [hc1]
  have hsl2 : slice2 st.buffer k '/' '/' = false := by
    unfold slice2
    rw [hbuf]
    cases rest2 <;> simp [hc1]
  have htn : (st.p + 1).toNat = k := by rw [hp]; exact Int.toNat_natCast k
  have hget2 : st.buffer[k]? = some c := by
    rw [← List.get?_eq_getElem?]; exact hget
  have hnotmem : c ∉ SYMBOLS := by
    intro hm
    have h1 : SYMBOLS.contains c = true := List.elem_iff.mpr hm
    rw [h1] at hc3
    exact Bool.noConfusion hc3
  simp [nextChar, hskip, hcom, hstr, hpne, htn, hget2, hsl1, hsl2, hc2, hnotmem, hc4]

/-- In normal mode, a whitespace character flushes the pending token buffer
through `_get_typed_token_list`. -/
theorem nextChar_space_flush (st : LexState) (k : Nat) (c : Char) (rest2 : List Char)
    (hskip : st.skip = 0) (hcom : st.inComment = false) (hstr : st.inString = false)
    (hp : st.p + 1 = (k : Int)) (hbuf : st.buffer.drop k = c :: rest2)
    (hc1 : c ≠ '/') (hc2 : c ≠ '"') (hc3 : SYMBOLS.contains c = false)
    (hc4 : pyIsSpace c = true) :
    nextChar st =
      (match getTypedTokenList st.lineCount st.tokenChars with
       | .error e => .error e
       | .ok ts => .ok ({ st with p := st.p + 1, tokenChars := [] }, ts)) := by
  have hklen : k < st.buffer.length := by
    by_contra hge
    push_neg at hge
    rw [List.drop_eq_nil_of_le hge] at hbuf
    exact List.noConfusion hbuf
  have hget : st.buffer.get? k = some c := by
    rw [get?_eq_head?_drop, hbuf]; rfl
  have hpne : ¬ (st.p + 1 = (st.buffer.length : Int)) := by
    rw [hp]
    exact_mod_cast Nat.ne_of_lt hklen
  have hsl1 : slice2 st.buffer k '/' '*' = false := by
    unfold slice2
    rw [hbuf]
    cases rest2 <;> simp [hc1]
  have hsl2 : slice2 st.buffer k '/' '/' = false := by
    unfold slice2
    rw [hbuf]
    cases rest2 <;> simp [hc1]
  have htn : (st.p + 1).toNat = k := by rw [hp]; exact Int.toNat_natCast k
  have hget2 : st.buffer[k]? = some c := by
    rw [← List.get?_eq_getElem?]; exact hget
  have hnotmem : c ∉ SYMBOLS := by
    intro hm
    have h1 : SYMBOLS.contains c = true := List.elem_iff.mpr hm
    rw [h1] at hc3
    exact Bool.noConfusion hc3
  simp [nextChar, hskip, hcom, hstr, hpne, htn, hget2, hsl1, hsl2, hc2, hnotmem, hc4]

/-- Running the lexer loop over a run of digit characters sitting in the
middle of the current line appends them all to the pending-token buffer. -/
theorem lexLoop_digit_run (ds : List Char) :
    ∀ (fuel : Nat) (st : LexState) (k : Nat) (suf : List Char),
      ds.all Char.isDigit = true →
      st.skip = 0 → st.inComment = false → st.inString = false → st.eof = false →
      st.p + 1 = (k : Int) →
      st.buffer.drop k = ds ++ suf →
      lexLoop (ds.length + fuel) st =
        lexLoop fuel { st with p := st.p + (ds.length : Int), tokenChars := st.tokenChars ++ ds } := by
  induction ds with
  | nil =>
    intro fuel st k suf _ _ _ _ _ _ _
    simp
  | cons c cs ih =>
    intro fuel st k suf hall hskip hcom hstr heof hp hbuf
    simp only [List.all_cons, Bool.and_eq_true] at hall
    obtain ⟨hd1, hd2, hd3, hd4⟩ := isDigit_plain c hall.1
    have hstep : nextChar st =
        .ok ({ st with p := st.p + 1, tokenChars := st.tokenChars ++ [c] }, []) :=
      nextChar_plain st k c (cs ++ suf) hskip hcom hstr hp hbuf
        hd1 hd2 hd3 hd4
    have hlen : (c :: cs).length + fuel = (cs.length + fuel) + 1 := by
      simp [List.length_cons]
      omega
    rw [hlen]
    have hone : lexLoop ((cs.length + fuel) + 1) st =
        lexLoop (cs.length + fuel) { st with p := st.p + 1, tokenChars := st.tokenChars ++ [c] } := by
      simp only [lexLoop, heof, Bool.false_eq_true, if_false, hstep]
    rw [hone]
    have hp2 : ({ st with p := st.p + 1, tokenChars := st.tokenChars ++ [c] } : LexState).p + 1
        = ((k + 1 : Nat) : Int) := by
      show st.p + 1 + 1 = ((k + 1 : Nat) : Int)
      rw [hp]
      push_cast
      ring
    have hdrop : ({ st with p := st.p + 1, tokenChars := st.tokenChars ++ [c] } : LexState).buffer.drop (k + 1)
        = cs ++ suf := by
      show st.buffer.drop (k + 1) = cs ++ suf
      have hdd : st.buffer.drop (k + 1) = (st.buffer.drop k).drop 1 := by
        rw [List.drop_drop]
      rw [hdd, hbuf]
      rfl
    rw [ih fuel { st with p := st.p + 1, tokenChars := st.tokenChars ++ [c] } (k + 1) suf
      hall.2 hskip hcom hstr heof hp2 hdrop]
    show lexLoop fuel
        { st with p := st.p + 1 + (cs.length : Int), tokenChars := st.tokenChars ++ [c] ++ cs }
      = lexLoop fuel
        { st with p := st.p + ((c :: cs).length : Int), tokenChars := st.tokenChars ++ (c :: cs) }
    rw [show st.p + 1 + (cs.length : Int) = st.p + ((c :: cs).length : Int) from by
      push_cast [List.length_cons]
      ring]
    rw [List.append_assoc, List.singleton_append]

theorem slice2_head_ne (c : Char) (l : List Char) (a b : Char) (h : c ≠ a) :
    slice2 (c :: l) 0 a b = false := by
  unfold slice2
  simp only [List.drop_zero]
  cases l <;> simp [h]

theorem lexLoop_step (n : Nat) (st st2 : LexState) (he : st.eof = false)
    (h : nextChar st = .ok (st2, [])) : lexLoop (n + 1) st = lexLoop n st2 := by
  simp only [lexLoop, he, Bool.false_eq_true, if_false, h]

theorem lexLoop_emit (n : Nat) (st st2 : LexState) (t : Token) (ts : List Token)
    (he : st.eof = false) (h : nextChar st = .ok (st2, t :: ts)) :
    lexLoop (n + 1) st = .ok (t :: ts, st2) := by
  simp only [lexLoop, he, Bool.false_eq_true, if_false, h]

theorem lexLoop_err (n : Nat) (st : LexState) (e : Err) (he : st.eof = false)
    (h : nextChar st = .error e) : lexLoop (n + 1) st = .error e := by
  simp only [lexLoop, he, Bool.false_eq_true, if_false, h]

/-- The lexer state after reading the line `c :: cs ++ "\n"` and processing
its first character `c` (an ordinary token character). -/
def digitsStartState (f : String) (c : Char) (cs : List Char) : LexState :=
  { filename := f, source := [], lineCount := 1, buffer := c :: (cs ++ ['\n']),
    skip := 0, p := 0, tokenChars := [c], inComment := false, multiline := false,
    inString := false, eof := false }

/-- The lexer state after additionally processing the characters `cs` (the
cursor sits just before the final newline). -/
def digitsMidState (f : String) (c : Char) (cs : List Char) : LexState :=
  { filename := f, source := [], lineCount := 1, buffer := c :: (cs ++ ['\n']),
    skip := 0, p := (0 : Int) + (cs.length : Int), tokenChars := c :: cs,
    inComment := false, multiline := false, inString := false, eof := false }

/-- The lexer state after the final newline flushed the pending token. -/
def digitsEndState (f : String) (c : Char) (cs : List Char) : LexState :=
  { filename := f, source := [], lineCount := 1, buffer := c :: (cs ++ ['\n']),
    skip := 0, p := ((0 : Int) + (cs.length : Int)) + 1, tokenChars := [],
    inComment := false, multiline := false, inString := false, eof := false }

/-- Feeding the lexer the single line `ds ++ "\n"` where `ds` is a nonempty
digit run: the digits accumulate in the pending-token buffer and the newline
flushes them through `_get_typed_token_list`, so the lexer emits exactly the
classification of `ds` (one token, or the error the classification raised). -/
theorem lexLoop_digits_line (f : String) (ds : List Char)
    (hall : ds.all Char.isDigit = true) (hne : ds ≠ []) :
    (∀ tok : Token, getTypedTokenList 1 ds = .ok [tok] →
        ∃ st2, lexLoop (ds.length + 1) (initLex f [ds ++ ['\n']]) = .ok ([tok], st2)) ∧
    (∀ e : Err, getTypedTokenList 1 ds = .error e →
        lexLoop (ds.length + 1) (initLex f [ds ++ ['\n']]) = .error e) := by
  cases ds with
  | nil => exact absurd rfl hne
  | cons c cs =>
    simp only [List.all_cons, Bool.and_eq_true] at hall
    obtain ⟨hd1, hd2, hd3, hd4⟩ := isDigit_plain c hall.1
    have hnotmem : c ∉ SYMBOLS := by
      intro hm
      have h1 : SYMBOLS.contains c = true := List.elem_iff.mpr hm
      rw [h1] at hd3
      exact Bool.noConfusion hd3
    have hfirst : nextChar (initLex f [(c :: cs) ++ ['\n']]) =
        .ok (digitsStartState f c cs, []) := by
      have hsl1 : slice2 (c :: (cs ++ ['\n'])) 0 '/' '*' = false := slice2_head_ne c _ _ _ hd1
      have hsl2 : slice2 (c :: (cs ++ ['\n'])) 0 '/' '/' = false := slice2_head_ne c _ _ _ hd1
      simp [nextChar, initLex, digitsStartState, hsl1, hsl2, hd2, hnotmem, hd4]
    have h0 : lexLoop ((c :: cs).length + 1) (initLex f [(c :: cs) ++ ['\n']]) =
        lexLoop (cs.length + 1) (digitsStartState f c cs) :=
      lexLoop_step (cs.length + 1) _ _ rfl hfirst
    have hrun2 : lexLoop (cs.length + 1) (digitsStartState f c cs) =
        lexLoop 1 (digitsMidState f c cs) :=
      lexLoop_digit_run cs 1 (digitsStartState f c cs) 1 ['\n'] hall.2 rfl rfl rfl rfl
        (by norm_num [digitsStartState])
        (by
          show (c :: (cs ++ ['\n'])).drop 1 = cs ++ ['\n']
          rfl)
    have hpB : (digitsMidState f c cs).p + 1 = ((cs.length + 1 : Nat) : Int) := by
      show ((0 : Int) + (cs.length : Int)) + 1 = ((cs.length + 1 : Nat) : Int)
      push_cast
      ring
    have hdropB : (digitsMidState f c cs).buffer.drop (cs.length + 1) = '\n' :: [] := by
      show (c :: (cs ++ ['\n'])).drop (cs.length + 1) = '\n' :: []
      have h1 : (c :: (cs ++ ['\n'])).drop (cs.length + 1) = (cs ++ ['\n']).drop cs.length :=
        List.drop_succ_cons
      rw [h1]
      exact List.drop_left cs ['\n']
    have hflush : nextChar (digitsMidState f c cs) =
        (match getTypedTokenList 1 (c :: cs) with
         | .error e => .error e
         | .ok ts => .ok (digitsEndState f c cs, ts)) :=
      nextChar_space_flush (digitsMidState f c cs)
        (cs.length + 1) '\n' [] rfl rfl rfl hpB hdropB (by decide) (by decide) (by decide) rfl
    constructor
    · intro tok hcl
      have hfl2 : nextChar (digitsMidState f c cs) = .ok (digitsEndState f c cs, [tok]) := by
        rw [hflush, hcl]
      refine ⟨digitsEndState f c cs, ?_⟩
      rw [h0, hrun2]
      exact lexLoop_emit 0 _ _ tok [] rfl hfl2
    · intro e hcl
      have hfl2 : nextChar (digitsMidState f c cs) = .error e := by
        rw [hflush, hcl]
      rw [h0, hrun2]
      exact lexLoop_err 0 _ e rfl hfl2

/-- Claim C6: the classification of a flushed token is as claimed on the
success side — when the lexer flushes a non-empty pending token that is not
a keyword, it yields an `integerConstant` token with the exact flushed text
precisely when the token parses as a base-10 integer with value in
[0, 32767]; in particular for every `n ≤ 32767` the digit sequence `str(n)`
(followed by a newline, which triggers the flush) lexes as an
`integerConstant` with text `str(n)`; and a preceding `-` is emitted as a
separate symbol token, after which the in-range digit sequence lexes without
any error.  The claimed failure diagnostics, however, are never produced:
`32768` (both at the classification level and through the full lexer) and a
digit-start token that does not parse as an integer crash with `NameError`,
because the `TokenizerError` class these branches raise is defined nowhere
in the repository, so the result is never the intended "Integer out of
range" / "cannot start with a digit" `TokenizerError` for any message. -/
theorem integer_literal_lexing :
    (∀ (k : Nat) (tok : List Char), tok ≠ [] → isKeyword tok = false →
        (getTypedTokenList k tok = .ok [⟨"integerConstant", String.mk tok⟩] ↔
          ∃ i : Int, pyIntParse tok = some i ∧ 0 ≤ i ∧ i ≤ 32767)) ∧
    (∀ n : Nat, n ≤ 32767 →
        ∃ st2, lexLoop ((decRepr n).length + 1) (initLex "F" [decRepr n ++ ['\n']]) =
          .ok ([⟨"integerConstant", String.mk (decRepr n)⟩], st2)) ∧
    (∀ k : Nat, getTypedTokenList k (("32768").data) = .error .nameError) ∧
    (lexLoop 7 (initLex "F" [("32768\n").data]) = .error .nameError ∧
      ∀ msg : String, lexLoop 7 (initLex "F" [("32768\n").data]) ≠
        .error (.tokenizerError msg)) ∧
    (∀ (k : Nat) (c : Char) (rest : List Char), c.isDigit = true →
        pyIntParse (c :: rest) = none →
        getTypedTokenList k (c :: rest) = .error .nameError ∧
          ∀ msg : String, getTypedTokenList k (c :: rest) ≠ .error (.tokenizerError msg)) ∧
    (∃ st1, lexLoop 2 (initLex "F" [("-32767\n").data]) = .ok ([⟨"symbol", "-"⟩], st1) ∧
      ∃ st2, lexLoop 7 st1 = .ok ([⟨"integerConstant", "32767"⟩], st2)) := by
  refine ⟨?_, ?_, fun k => rfl, ⟨rfl, ?_⟩, ?_, ?_⟩
  · intro k tok hne hkw
    constructor
    · intro h
      unfold getTypedTokenList at h
      rw [if_neg hne, hkw] at h
      simp only [Bool.false_eq_true, if_false] at h
      cases hp : pyIntParse tok with
      | none =>
        rw [hp] at h
        exfalso
        cases tok with
        | nil => exact hne rfl
        | cons c rest =>
          by_cases hd : c.isDigit = true
          · simp only [hd, if_true] at h
            exact Except.noConfusion h
          · simp only [hd, Bool.false_eq_true, if_false] at h
            by_cases hv : (c :: rest).all validIdentChar = true
            · simp only [hv, if_true] at h
              have := Except.ok.inj h
              have h2 := List.cons.inj this
              have := Token.mk.inj h2.1
              exact absurd this.1 (by decide)
            · simp only [hv, Bool.false_eq_true, if_false] at h
              exact Except.noConfusion h
      | some i =>
        rw [hp] at h
        by_cases hr : 0 ≤ i ∧ i ≤ 32767
        · exact ⟨i, rfl, hr⟩
        · simp only [if_neg hr] at h
          exact absurd h (by simp)
    · rintro ⟨i, hp, hr⟩
      unfold getTypedTokenList
      rw [if_neg hne, hkw]
      simp only [Bool.false_eq_true, if_false, hp, if_pos hr]
  · intro n hn
    obtain ⟨hne, hall, hval⟩ := decRepr_spec n
    have hparse : pyIntParse (decRepr n) = some ((n : Nat) : Int) := by
      rw [pyIntParse_digits (decRepr n) hall hne, hval]
    have hcl : getTypedTokenList 1 (decRepr n) =
        .ok [⟨"integerConstant", String.mk (decRepr n)⟩] := by
      unfold getTypedTokenList
      rw [if_neg hne, all_digit_not_keyword (decRepr n) hall]
      simp only [Bool.false_eq_true, if_false, hparse]
      rw [if_pos (by constructor <;> omega)]
    exact (lexLoop_digits_line "F" (decRepr n) hall hne).1 _ hcl
  · intro msg h
    rw [show lexLoop 7 (initLex "F" [("32768\n").data]) = Except.error Err.nameError
      from rfl] at h
    exact Err.noConfusion (Except.error.inj h)
  · intro k c rest hd hp
    have heq : getTypedTokenList k (c :: rest) = .error .nameError := by
      unfold getTypedTokenList
      rw [if_neg (by simp : ¬(c :: rest = [])), digit_head_not_keyword c rest hd]
      simp only [Bool.false_eq_true, if_false, hp, hd, if_true]
    refine ⟨heq, ?_⟩
    intro msg h
    rw [heq] at h
    exact Err.noConfusion (Except.error.inj h)
  · exact ⟨_, rfl, _, rfl⟩

/-- Witness for C6 at concrete inputs: the token `42` classifies as an
integerConstant (via the iff), `str(7) = "7"` lexes as an integerConstant
token, and `1a` crashes with `NameError`, never with the intended
digit-start `TokenizerError`. -/
theorem integer_literal_lexing_witness :
    (getTypedTokenList 3 (("42").data) = .ok [⟨"integerConstant", "42"⟩] ↔
      ∃ i : Int, pyIntParse (("42").data) = some i ∧ 0 ≤ i ∧ i ≤ 32767) ∧
    (∃ st2, lexLoop ((decRepr 7).length + 1) (initLex "F" [decRepr 7 ++ ['\n']]) =
      .ok ([⟨"integerConstant", String.mk (decRepr 7)⟩], st2)) ∧
    (getTypedTokenList 3 ('1' :: ['a']) = .error .nameError ∧
      ∀ msg : String, getTypedTokenList 3 ('1' :: ['a']) ≠ .error (.tokenizerError msg)) :=
  ⟨integer_literal_lexing.1 3 (("42").data) (by decide) (by decide),
   integer_literal_lexing.2.1 7 (by norm_num),
   integer_literal_lexing.2.2.2.2.1 3 '1' ['a'] (by decide) (by decide)⟩

/-- Claim C7: lexing `"hello"` yields exactly one `stringConstant` token with
text `hello` (quotes stripped) and nothing else before end of input; a string
literal terminated by a newline instead of a closing quote (`"abc` at end of
line) still yields a `stringConstant` token with the characters seen so far,
not a lexical error. -/
theorem string_literal_lexing :
    (∃ st1, lexLoop 8 (initLex "F" [("\"hello\"\n").data]) =
        .ok ([⟨"stringConstant", "hello"⟩], st1) ∧
      lexLoop 3 st1 = .ok ([], { st1 with lineCount := 2, eof := true, p := 8 })) ∧
    (∃ st2, lexLoop 6 (initLex "F" [("\"abc\n").data]) =
        .ok ([⟨"stringConstant", "abc"⟩], st2)) := by
  constructor
  · exact ⟨_, rfl, rfl⟩
  · exact ⟨_, rfl⟩

/-- With at least one buffered token, `peek()` returns the head of the deque
and leaves the stream unchanged. -/
theorem tokPeek_zero_buffered (fuel : Nat) (lx : LexState) (t : Token) (buf : List Token) :
    tokPeek (fuel + 1) 0 ⟨lx, t :: buf⟩ = .ok (some t, ⟨lx, t :: buf⟩) := by
  simp [tokPeek]

/-- When every remaining option fails to match the (buffered) upcoming token,
the `OneOf.resolve` loop runs through all of them without consuming anything
and falls through to the failure branch, with `first_token` holding the
peeked token once at least one option was tried. -/
theorem oneOfGo_all_false (rest : List Syn) :
    ∀ (reg : Registry) (fuel : Nat) (full : List Syn) (lx : LexState) (buf : List Token)
      (t : Token) (ft : Option Token),
      (∀ o ∈ rest, ∀ f : Nat, matchTok reg f o (some t) = .ok false) →
      rest.length ≤ fuel →
      oneOfGo reg fuel full rest ⟨lx, t :: buf⟩ ft =
        oneOfGo reg (fuel - rest.length) full [] ⟨lx, t :: buf⟩
          (if rest.isEmpty then ft else some t) := by
  induction rest with
  | nil => intro reg fuel full lx buf t ft _ _; simp
  | cons o os ih =>
    intro reg fuel full lx buf t ft hall hlen
    match fuel, hlen with
    | f + 1, hlen =>
      have hpeek : tokPeek (f + 1) 0 ⟨lx, t :: buf⟩ = .ok (some t, ⟨lx, t :: buf⟩) :=
        tokPeek_zero_buffered f lx t buf
      have hstep : oneOfGo reg (f + 1) full (o :: os) ⟨lx, t :: buf⟩ ft =
          oneOfGo reg f full os ⟨lx, t :: buf⟩ (some t) := by
        simp only [oneOfGo, hpeek]
        rw [hall o (List.mem_cons_self o os) (f + 1)]
      rw [hstep,
        ih reg f full lx buf t (some t)
          (fun o2 ho2 f2 => hall o2 (List.mem_cons_of_mem o ho2) f2)
          (Nat.le_of_succ_le_succ hlen)]
      simp [Nat.succ_sub_succ]

/-- Claim C5 (amended): a terminal element's `resolve` on a non-matching
token does not produce the intended expected-vs-actual report: the failed
validation raises `AttributeError`, because `resolve` hands
`_create_syntax_error` the integer `tokenizer.line_count` where it expects
the tokenizer, and the message f-string dies reading `.filename` on it.
When no option of a `OneOf` matches, the raised error does list every
candidate's `type` name and the token actually found, with the file/line
location.  A candidate list containing `identifier` with found token the
integer literal `5` indeed arises — from resolving the `type` rule at the
token `5` — but not from parsing `let 5 = 1;`, which crashes with
`TypeError` (see the counterexample). -/
theorem error_reporting_formats :
    (∀ (reg : Registry) (fuel : Nat) (lx : LexState) (buf : List Token) (t : Token) (n : String),
        (t.type ≠ "keyword" ∨ t.name ≠ n) →
        resolveSyn reg fuel (.kw n) ⟨lx, t :: buf⟩ = .error .attributeError) ∧
    (∀ (reg : Registry) (fuel : Nat) (lx : LexState) (buf : List Token) (t : Token) (n : String),
        (t.type ≠ "symbol" ∨ t.name ≠ n) →
        resolveSyn reg fuel (.sym n) ⟨lx, t :: buf⟩ = .error .attributeError) ∧
    (∀ (reg : Registry) (fuel : Nat) (lx : LexState) (buf : List Token) (t : Token),
        t.type ≠ "identifier" →
        resolveSyn reg fuel .ident ⟨lx, t :: buf⟩ = .error .attributeError) ∧
    (∀ (reg : Registry) (fuel : Nat) (tn : Option String) (opts : List Syn) (lx : LexState)
        (buf : List Token) (t : Token) (ns : List String),
        opts ≠ [] →
        (∀ o ∈ opts, ∀ f : Nat, matchTok reg f o (some t) = .ok false) →
        synTypeNames opts = .ok ns →
        opts.length ≤ fuel →
        resolveSyn reg (fuel + 1) (.oneOf tn opts) ⟨lx, t :: buf⟩ =
          .error (jackErr lx ("Must be one of the following: "
            ++ String.intercalate ", " ns ++ ". Instead found " ++ tokenStr t ++ "."))) ∧
    resolveSyn initialClassNames 50 typeSyn (initTok "F" [("5\n").data]) =
      .error (.jackSyntaxError ("F Line 1: Must be one of the following: "
        ++ "keyword, keyword, keyword, identifier. Instead found integerConstant `5`.")) := by
  refine ⟨?_, ?_, ?_, ?_, rfl⟩
  · intro reg fuel lx buf t n h
    rcases h with h | h
    · simp [resolveSyn, tokNext, h]
    · by_cases h2 : t.type = "keyword" <;> simp [resolveSyn, tokNext, h, h2]
  · intro reg fuel lx buf t n h
    rcases h with h | h
    · simp [resolveSyn, tokNext, h]
    · by_cases h2 : t.type = "symbol" <;> simp [resolveSyn, tokNext, h, h2]
  · intro reg fuel lx buf t h
    simp [resolveSyn, tokNext, h]
  · intro reg fuel tn opts lx buf t ns hne hall hns hlen
    have h1 : resolveSyn reg (fuel + 1) (.oneOf tn opts) ⟨lx, t :: buf⟩ =
        oneOfGo reg fuel opts opts ⟨lx, t :: buf⟩ none := by
      simp [resolveSyn]
    rw [h1, oneOfGo_all_false opts reg fuel opts lx buf t none hall hlen]
    have hemp : opts.isEmpty = false := by
      cases opts with
      | nil => exact absurd rfl hne
      | cons a l => rfl
    rw [hemp]
    simp [oneOfGo, hns, optTokenStr]

/-- Witness for C5 at concrete inputs: the keyword terminal `do` meeting the
symbol `;` crashes with `AttributeError`, and a one-option `OneOf` (option
`Keyword("let")`) failing on the integer literal `5` reports the candidate
list `keyword` and the found token. -/
theorem error_reporting_formats_witness :
    resolveSyn [] 0 (.kw "do") ⟨initLex "F" [], [⟨"symbol", ";"⟩]⟩ =
      .error .attributeError ∧
    resolveSyn [] 2 (.oneOf none [.kw "let"]) ⟨initLex "F" [], [⟨"integerConstant", "5"⟩]⟩ =
      .error (jackErr (initLex "F" []) ("Must be one of the following: "
        ++ String.intercalate ", " ["keyword"] ++ ". Instead found "
        ++ tokenStr ⟨"integerConstant", "5"⟩ ++ ".")) :=
  ⟨error_reporting_formats.1 [] 0 (initLex "F" []) [] ⟨"symbol", ";"⟩ "do"
      (Or.inl (by decide)),
   error_reporting_formats.2.2.2.1 [] 1 none [.kw "let"] (initLex "F" [])
      [] ⟨"integerConstant", "5"⟩ ["keyword"]
      (by simp)
      (by
        intro o ho f
        have : o = .kw "let" := by simpa using ho
        subst this
        simp [matchTok])
      rfl (by simp)⟩

/-- Witness for C8 at concrete inputs: the unregistered identifier `foo` is
rejected by `match` and makes `resolve` raise "Expected valid class name";
after `ClassName.add("Foo")` the identifier `Foo` matches; the built-in name
`Math` matches initially and still matches after the addition. -/
theorem class_name_registry_semantics_witness :
    resolveSyn initialClassNames 0 .clsName ⟨initLex "F" [], [⟨"identifier", "foo"⟩]⟩ =
      .error (jackErr (initLex "F" []) "Expected valid class name") ∧
    matchTok (classNameAdd "Foo" initialClassNames) 0 .clsName (some ⟨"identifier", "Foo"⟩) = .ok true ∧
    matchTok (classNameAdd "Foo" initialClassNames) 0 .clsName (some ⟨"identifier", "Math"⟩) = .ok true :=
  ⟨class_name_registry_semantics.2.1 initialClassNames 0 (initLex "F" [])
      [] ⟨"identifier", "foo"⟩ rfl (by decide),
   class_name_registry_semantics.2.2.1 initialClassNames "Foo" 0,
   class_name_registry_semantics.2.2.2.1 initialClassNames "Foo" 0 ⟨"identifier", "Math"⟩
      ((class_name_registry_semantics.1 initialClassNames 0 ⟨"identifier", "Math"⟩).mpr
        ⟨rfl, by decide⟩)⟩

end JackAnalyzer
